import Mathlib

/-!
Verification of the RICE calculator (src/rice_calculator.py) against its
specification.  The numeric Python values are embedded as rationals; the
Google-Sheets backing store is embedded as an explicit state carrying the
per-user worksheets together with availability and failure flags, and the
store-touching functions are state-passing translations of the source.
-/

namespace RiceCalc

/-- Scorer, translated from `calculate_rice_score` (src lines 8-12):
returns 0 when effort is 0, otherwise (reach * impact * confidence) / effort. -/
def calculate_rice_score (reach impact confidence effort : ℚ) : ℚ :=
  if effort = 0 then 0
  else (reach * impact * confidence) / effort

/-- Round a rational to the nearest integer, ties to even, the semantics of
Python's builtin round on exact values. -/
def roundHalfEven (q : ℚ) : ℤ :=
  let f := ⌊q⌋
  let r := q - (f : ℚ)
  if r < 1/2 then f
  else if 1/2 < r then f + 1
  else if f % 2 = 0 then f else f + 1

/-- Python's round(x, 2): round x * 100 to the nearest integer (ties to even)
and divide back by 100. -/
def round2 (q : ℚ) : ℚ := (roundHalfEven (q * 100) : ℚ) / 100

/-- One stored project record: the six columns of a worksheet row
(Project, Reach (%), Impact, Confidence (%), Effort (months), RICE Score). -/
structure Project where
  project : String
  reach : ℚ
  impact : ℚ
  confidence : ℚ
  effort : ℚ
  score : ℚ
deriving DecidableEq

/-- The add action of `main` (src lines 186-204): the confidence percentage is
divided by 100 before scoring, the score is rounded to 2 decimals, and the
record stores the raw inputs together with the rounded score. -/
def addProject (name : String) (reach impact confidence effort : ℚ) : Project :=
  let confidence_decimal := confidence / 100
  let rice_score := calculate_rice_score reach impact confidence_decimal effort
  { project := name
    reach := reach
    impact := impact
    confidence := confidence
    effort := effort
    score := round2 rice_score }

/-- A spreadsheet cell is either text or a number. -/
inductive Cell where
  | str (s : String)
  | num (q : ℚ)
deriving DecidableEq

/-- A worksheet row is a list of cells. -/
abbrev Row := List Cell

/-- The fixed six-column header row written by `get_worksheet` (src line 50)
and `save_user_projects` (src line 87). -/
def headerRow : Row :=
  [.str "Project", .str "Reach (%)", .str "Impact", .str "Confidence (%)",
   .str "Effort (months)", .str "RICE Score"]

/-- The row appended for one project by `save_user_projects` (src lines 92-99). -/
def projectRow (p : Project) : Row :=
  [.str p.project, .num p.reach, .num p.impact, .num p.confidence,
   .num p.effort, .num p.score]

/-- Reading one data row back as a record, as gspread's get_all_records does
under the fixed header: a well-formed six-cell row yields the record, anything
else is dropped. -/
def rowToProject : Row → Option Project
  | [.str n, .num r, .num i, .num c, .num e, .num s] => some ⟨n, r, i, c, e, s⟩
  | _ => none

/-- gspread worksheet.get_all_records (src line 68): all rows after the header
row, read back as records. -/
def get_all_records (rows : List Row) : List Project :=
  (rows.drop 1).filterMap rowToProject

/-- State of the external Google-Sheets store as seen by the program.
`gcAvailable` models `init_gsheets` returning a client rather than None
(src lines 14-28); `docAvailable` models the outer try of `get_worksheet`
succeeding, that is, opening the spreadsheet and any worksheet creation going
through (src lines 35-55); `readFails` models `get_all_records` raising
(src lines 66-71); `writeFails` models the first write of the save block
raising (src lines 83-103); `tables` holds the worksheets by title. -/
structure SheetsState where
  gcAvailable : Bool
  docAvailable : Bool
  readFails : Bool
  writeFails : Bool
  tables : List (String × List Row)
deriving DecidableEq

/-- Look a worksheet up by title. -/
def lookupTable : List (String × List Row) → String → Option (List Row)
  | [], _ => none
  | (n, rs) :: ts, u => if n = u then some rs else lookupTable ts u

/-- Replace the rows of the worksheet with the given title, or add the
worksheet if no worksheet of that title exists. -/
def setTable : List (String × List Row) → String → List Row → List (String × List Row)
  | [], u, rs => [(u, rs)]
  | (n, r) :: ts, u, rs =>
    if n = u then (u, rs) :: ts else (n, r) :: setTable ts u rs

/-- Translated from `get_worksheet` (src lines 30-55): None when the client is
None; None when the spreadsheet cannot be opened (the outer except); otherwise
the user's worksheet, created with the six-column header row when it does not
exist yet.  The handle returned for a worksheet is its title. -/
def get_worksheet (s : SheetsState) (username : String) :
    Option String × SheetsState :=
  if s.gcAvailable = false then (none, s)
  else if s.docAvailable = false then (none, s)
  else
    match lookupTable s.tables username with
    | some _ => (some username, s)
    | none =>
      (some username,
       { s with tables := s.tables ++ [(username, [headerRow])] })

/-- Translated from `load_user_projects` (src lines 57-71): an empty list when
the worksheet handle is None, an empty list when reading raises, otherwise all
records of the worksheet. -/
def load_user_projects (s : SheetsState) (username : String) :
    List Project × SheetsState :=
  match get_worksheet s username with
  | (none, s1) => ([], s1)
  | (some w, s1) =>
    if s1.readFails then ([], s1)
    else (get_all_records ((lookupTable s1.tables w).getD []), s1)

/-- Translated from `save_user_projects` (src lines 73-103): True without
touching the store when the worksheet handle is None; False when the write
block raises; otherwise the worksheet is cleared and rebuilt as the header row
followed by one row per project, in order, and True is returned. -/
def save_user_projects (s : SheetsState) (username : String)
    (projects : List Project) : Bool × SheetsState :=
  match get_worksheet s username with
  | (none, s1) => (true, s1)
  | (some w, s1) =>
    if s1.writeFails then (false, s1)
    else
      (true,
       { s1 with tables := setTable s1.tables w (headerRow :: projects.map projectRow) })

theorem lookupTable_setTable_self (t : List (String × List Row)) (u : String)
    (v : List Row) : lookupTable (setTable t u v) u = some v := by
  induction t with
  | nil => simp [setTable, lookupTable]
  | cons hd tl ih =>
    obtain ⟨n, r⟩ := hd
    by_cases h : n = u
    · simp [setTable, h, lookupTable]
    · simp [setTable, h, lookupTable, ih]

theorem setTable_idem (t : List (String × List Row)) (u : String) (v : List Row) :
    setTable (setTable t u v) u v = setTable t u v := by
  induction t with
  | nil => simp [setTable]
  | cons hd tl ih =>
    obtain ⟨n, r⟩ := hd
    by_cases h : n = u
    · simp [setTable, h]
    · simp [setTable, h, ih]

theorem lookupTable_append_of_none (t : List (String × List Row)) (u : String)
    (v : List Row) (h : lookupTable t u = none) :
    lookupTable (t ++ [(u, v)]) u = some v := by
  induction t with
  | nil => simp [lookupTable]
  | cons hd tl ih =>
    obtain ⟨n, r⟩ := hd
    by_cases hn : n = u
    · simp [lookupTable, hn] at h
    · simp only [lookupTable, List.cons_append, if_neg hn] at h ⊢
      exact ih h

theorem rowToProject_projectRow (p : Project) : rowToProject (projectRow p) = some p := rfl

theorem get_all_records_saved (ps : List Project) :
    get_all_records (headerRow :: ps.map projectRow) = ps := by
  show (ps.map projectRow).filterMap rowToProject = ps
  induction ps with
  | nil => rfl
  | cons p ps ih => simp [rowToProject_projectRow, ih]

theorem get_worksheet_found (s : SheetsState) (u : String) (rs : List Row)
    (hgc : s.gcAvailable = true) (hdoc : s.docAvailable = true)
    (h : lookupTable s.tables u = some rs) :
    get_worksheet s u = (some u, s) := by
  unfold get_worksheet
  simp [hgc, hdoc, h]

theorem get_worksheet_new (s : SheetsState) (u : String)
    (hgc : s.gcAvailable = true) (hdoc : s.docAvailable = true)
    (h : lookupTable s.tables u = none) :
    get_worksheet s u
      = (some u, { s with tables := s.tables ++ [(u, [headerRow])] }) := by
  unfold get_worksheet
  simp [hgc, hdoc, h]

theorem get_worksheet_none_state (s : SheetsState) (u : String)
    (h : (get_worksheet s u).1 = none) : get_worksheet s u = (none, s) := by
  unfold get_worksheet at h ⊢
  by_cases hgc : s.gcAvailable = false
  · simp [hgc]
  · by_cases hdoc : s.docAvailable = false
    · simp [hgc, hdoc]
    · cases hl : lookupTable s.tables u <;> simp [hgc, hdoc, hl] at h

theorem get_worksheet_writeFails (s : SheetsState) (u : String) :
    (get_worksheet s u).2.writeFails = s.writeFails := by
  unfold get_worksheet
  by_cases hgc : s.gcAvailable = false
  · simp [hgc]
  · by_cases hdoc : s.docAvailable = false
    · simp [hgc, hdoc]
    · cases hl : lookupTable s.tables u <;> simp [hgc, hdoc, hl]

theorem save_reachable (s : SheetsState) (u : String) (ps : List Project)
    (hgc : s.gcAvailable = true) (hdoc : s.docAvailable = true)
    (hw : s.writeFails = false) :
    ∃ t2, save_user_projects s u ps
      = (true, { s with tables := setTable t2 u (headerRow :: ps.map projectRow) }) := by
  unfold save_user_projects
  cases hl : lookupTable s.tables u with
  | some rs =>
    rw [get_worksheet_found s u rs hgc hdoc hl]
    exact ⟨s.tables, by simp [hw]⟩
  | none =>
    rw [get_worksheet_new s u hgc hdoc hl]
    exact ⟨s.tables ++ [(u, [headerRow])], by simp [hw]⟩

/-- C1: for every reach, impact, confidence fraction and effort, the scorer
returns 0 when effort equals 0 and otherwise returns
(reach * impact * confidence_fraction) / effort; as a total function on ℚ it
raises no error, at effort = 0 included. -/
theorem c1_scorer_guarded_quotient (reach impact confidence effort : ℚ) :
    (effort = 0 → calculate_rice_score reach impact confidence effort = 0) ∧
    (effort ≠ 0 → calculate_rice_score reach impact confidence effort
      = (reach * impact * confidence) / effort) := by
  unfold calculate_rice_score
  constructor
  · intro h
    rw [if_pos h]
  · intro h
    rw [if_neg h]

/-- Witness for C1 at the documented worked example: effort 0 scores 0, and
reach 80, impact 2, confidence 0.9, effort 3 scores 48. -/
theorem c1_scorer_guarded_quotient_witness :
    calculate_rice_score 80 2 (9/10) 0 = 0 ∧
    calculate_rice_score 80 2 (9/10) 3 = 48 := by
  constructor
  · exact (c1_scorer_guarded_quotient 80 2 (9/10) 0).1 rfl
  · rw [(c1_scorer_guarded_quotient 80 2 (9/10) 3).2 (by norm_num)]
    norm_num

/-- C2: the add action stores the raw 0-100 confidence in the record but
scores with confidence / 100, and the stored score is the rounded-to-2-decimals
value of (reach * impact * (confidence / 100)) / effort, computed once at
record creation. -/
theorem c2_add_project_score (name : String) (reach impact confidence effort : ℚ)
    (h : effort ≠ 0) :
    (addProject name reach impact confidence effort).score
      = round2 ((reach * impact * (confidence / 100)) / effort) ∧
    (addProject name reach impact confidence effort).confidence = confidence := by
  refine ⟨?_, rfl⟩
  show round2 (calculate_rice_score reach impact (confidence / 100) effort) = _
  unfold calculate_rice_score
  rw [if_neg h]

/-- Witness for C2 at reach 80, impact 2, confidence 90, effort 3: the stored
score is the rounded formula value, and that value evaluates to 48. -/
theorem c2_add_project_score_witness :
    (3 : ℚ) ≠ 0 ∧
    (addProject "Mobile App Feature" 80 2 90 3).score
      = round2 ((80 * 2 * ((90 : ℚ) / 100)) / 3) ∧
    round2 ((80 * 2 * ((90 : ℚ) / 100)) / 3) = 48 := by
  refine ⟨by norm_num,
    (c2_add_project_score "Mobile App Feature" 80 2 90 3 (by norm_num)).1, ?_⟩
  unfold round2 roundHalfEven
  norm_num

/-- A reachable store with no worksheets yet, used to instantiate theorems. -/
def demoState : SheetsState :=
  { gcAvailable := true, docAvailable := true, readFails := false,
    writeFails := false, tables := [] }

/-- A store that is unavailable (no client), used to instantiate theorems. -/
def demoOffline : SheetsState :=
  { gcAvailable := false, docAvailable := false, readFails := false,
    writeFails := false, tables := [] }

/-- A concrete record with integer-valued fields, used to instantiate
theorems. -/
def demoProject : Project :=
  { project := "Dark Mode", reach := 40, impact := 1, confidence := 90,
    effort := 1, score := 36 }

/-- C4: over a reachable store, save succeeds, leaves the user's table holding
exactly the six-column header row followed by the given records in order, and
running the same save again returns success and leaves the store state
unchanged. -/
theorem c4_save_rewrite_idempotent (s : SheetsState) (u : String) (ps : List Project)
    (hgc : s.gcAvailable = true) (hdoc : s.docAvailable = true)
    (hw : s.writeFails = false) :
    (save_user_projects s u ps).1 = true ∧
    lookupTable (save_user_projects s u ps).2.tables u
      = some (headerRow :: ps.map projectRow) ∧
    headerRow.length = 6 ∧
    save_user_projects (save_user_projects s u ps).2 u ps
      = (true, (save_user_projects s u ps).2) := by
  obtain ⟨t2, hsave⟩ := save_reachable s u ps hgc hdoc hw
  set v := headerRow :: ps.map projectRow with hv
  set s2 : SheetsState := { s with tables := setTable t2 u v } with hs2
  have hl : lookupTable s2.tables u = some v := lookupTable_setTable_self t2 u v
  rw [hsave]
  refine ⟨rfl, hl, rfl, ?_⟩
  have hgc2 : s2.gcAvailable = true := hgc
  have hdoc2 : s2.docAvailable = true := hdoc
  have hw2 : s2.writeFails = false := hw
  have hfound : get_worksheet s2 u = (some u, s2) :=
    get_worksheet_found s2 u v hgc2 hdoc2 hl
  have hts : setTable s2.tables u v = s2.tables := setTable_idem t2 u v
  show save_user_projects s2 u ps = (true, s2)
  unfold save_user_projects
  rw [hfound]
  show (if s2.writeFails = true then (false, s2)
      else (true, { s2 with
        tables := setTable s2.tables u (headerRow :: ps.map projectRow) }))
    = (true, s2)
  have hcond : ¬(s2.writeFails = true) := by
    rw [hw2]
    exact Bool.false_ne_true
  rw [if_neg hcond, ← hv, hts]

/-- Witness for C4 on the empty reachable store, the user Rolf and one
record. -/
theorem c4_save_rewrite_idempotent_witness :
    demoState.gcAvailable = true ∧ demoState.docAvailable = true ∧
    demoState.writeFails = false ∧
    (save_user_projects demoState "Rolf" [demoProject]).1 = true ∧
    lookupTable (save_user_projects demoState "Rolf" [demoProject]).2.tables "Rolf"
      = some (headerRow :: [demoProject].map projectRow) ∧
    save_user_projects (save_user_projects demoState "Rolf" [demoProject]).2 "Rolf"
        [demoProject]
      = (true, (save_user_projects demoState "Rolf" [demoProject]).2) := by
  have h := c4_save_rewrite_idempotent demoState "Rolf" [demoProject] rfl rfl rfl
  exact ⟨rfl, rfl, rfl, h.1, h.2.1, h.2.2.2⟩

/-- C5: save declares success, with the state untouched, whenever the
worksheet handle is none, and declares failure exactly when the handle is
present but the write raises. -/
theorem c5_save_success_failure (s : SheetsState) (u : String) (ps : List Project) :
    ((get_worksheet s u).1 = none → save_user_projects s u ps = (true, s)) ∧
    ((save_user_projects s u ps).1 = false ↔
      (get_worksheet s u).1 ≠ none ∧ s.writeFails = true) := by
  have hgw : get_worksheet s u = ((get_worksheet s u).1, (get_worksheet s u).2) := rfl
  cases h1 : (get_worksheet s u).1 with
  | none =>
    have hgw2 := get_worksheet_none_state s u h1
    constructor
    · intro _
      unfold save_user_projects
      rw [hgw2]
    · unfold save_user_projects
      rw [hgw2]
      simp
  | some w =>
    rw [h1] at hgw
    constructor
    · intro h
      exact absurd h (Option.some_ne_none w)
    · unfold save_user_projects
      rw [hgw]
      have hwf := get_worksheet_writeFails s u
      by_cases hw : s.writeFails
      · rw [hw] at hwf
        simp [hwf, hw]
      · simp only [Bool.not_eq_true] at hw
        rw [hw] at hwf
        simp [hwf, hw]

/-- Witness for C5: on the unavailable store the handle is none and save
returns success with the state unchanged. -/
theorem c5_save_success_failure_witness :
    (get_worksheet demoOffline "Rolf").1 = none ∧
    save_user_projects demoOffline "Rolf" [] = (true, demoOffline) ∧
    ((save_user_projects demoOffline "Rolf" []).1 = false ↔
      (get_worksheet demoOffline "Rolf").1 ≠ none ∧ demoOffline.writeFails = true) := by
  have h := c5_save_success_failure demoOffline "Rolf" []
  exact ⟨rfl, h.1 rfl, h.2⟩

/-- C6: load returns the empty sequence whenever the worksheet handle is none
or the read raises, and otherwise returns all rows of the user's table as
records; as a total function it propagates no failure. -/
theorem c6_load_swallows_errors (s : SheetsState) (u : String) :
    ((get_worksheet s u).1 = none ∨ s.readFails = true →
      (load_user_projects s u).1 = []) ∧
    (∀ w, (get_worksheet s u).1 = some w → s.readFails = false →
      (load_user_projects s u).1
        = get_all_records ((lookupTable (get_worksheet s u).2.tables w).getD [])) := by
  have hgw : get_worksheet s u = ((get_worksheet s u).1, (get_worksheet s u).2) := rfl
  cases h1 : (get_worksheet s u).1 with
  | none =>
    have hgw2 := get_worksheet_none_state s u h1
    constructor
    · intro _
      unfold load_user_projects
      rw [hgw2]
    · intro w hw
      simp [h1] at hw
  | some w0 =>
    rw [h1] at hgw
    have hrf : (get_worksheet s u).2.readFails = s.readFails := by
      unfold get_worksheet
      by_cases hgc : s.gcAvailable = false
      · simp [hgc]
      · by_cases hdoc : s.docAvailable = false
        · simp [hgc, hdoc]
        · cases hl : lookupTable s.tables u <;> simp [hgc, hdoc, hl]
    constructor
    · intro h
      rcases h with h | h
      · exact absurd h (Option.some_ne_none w0)
      · unfold load_user_projects
        rw [hgw]
        rw [h] at hrf
        simp [hrf]
    · intro w hw hr
      cases hw
      unfold load_user_projects
      rw [hgw]
      rw [hr] at hrf
      simp [hrf]

/-- Witness for C6: on the unavailable store load returns the empty sequence,
and on a reachable store holding one record for Rolf load returns it. -/
theorem c6_load_swallows_errors_witness :
    (get_worksheet demoOffline "Rolf").1 = none ∧
    (load_user_projects demoOffline "Rolf").1 = [] ∧
    (get_worksheet ⟨true, true, false, false,
        [("Rolf", [headerRow, projectRow demoProject])]⟩ "Rolf").1 = some "Rolf" ∧
    (load_user_projects ⟨true, true, false, false,
        [("Rolf", [headerRow, projectRow demoProject])]⟩ "Rolf").1
      = get_all_records ((lookupTable (get_worksheet ⟨true, true, false, false,
          [("Rolf", [headerRow, projectRow demoProject])]⟩ "Rolf").2.tables
          "Rolf").getD []) := by
  refine ⟨rfl, (c6_load_swallows_errors demoOffline "Rolf").1 (Or.inl rfl), rfl, ?_⟩
  exact (c6_load_swallows_errors ⟨true, true, false, false,
    [("Rolf", [headerRow, projectRow demoProject])]⟩ "Rolf").2 "Rolf" rfl rfl

/-- C7: over a reachable store, save followed by load for the same user
reproduces exactly the saved records, in insertion order. -/
theorem c7_round_trip (s : SheetsState) (u : String) (ps : List Project)
    (hgc : s.gcAvailable = true) (hdoc : s.docAvailable = true)
    (hwf : s.writeFails = false) (hrf : s.readFails = false) :
    (save_user_projects s u ps).1 = true ∧
    (load_user_projects (save_user_projects s u ps).2 u).1 = ps := by
  obtain ⟨t2, hsave⟩ := save_reachable s u ps hgc hdoc hwf
  set v := headerRow :: ps.map projectRow with hv
  set s2 : SheetsState := { s with tables := setTable t2 u v } with hs2
  have hl : lookupTable s2.tables u = some v := lookupTable_setTable_self t2 u v
  have hgc2 : s2.gcAvailable = true := hgc
  have hdoc2 : s2.docAvailable = true := hdoc
  have hrf2 : s2.readFails = false := hrf
  have hfound : get_worksheet s2 u = (some u, s2) :=
    get_worksheet_found s2 u v hgc2 hdoc2 hl
  rw [hsave]
  refine ⟨rfl, ?_⟩
  show (load_user_projects s2 u).1 = ps
  unfold load_user_projects
  rw [hfound]
  show (if s2.readFails = true then (([] : List Project), s2)
      else (get_all_records ((lookupTable s2.tables u).getD []), s2)).1 = ps
  have hcond : ¬(s2.readFails = true) := by
    rw [hrf2]
    exact Bool.false_ne_true
  rw [if_neg hcond]
  show get_all_records ((lookupTable s2.tables u).getD []) = ps
  rw [hl]
  exact get_all_records_saved ps

/-- Witness for C7 on the empty reachable store, the user Rolf and one
record. -/
theorem c7_round_trip_witness :
    demoState.gcAvailable = true ∧ demoState.docAvailable = true ∧
    demoState.writeFails = false ∧ demoState.readFails = false ∧
    (save_user_projects demoState "Rolf" [demoProject]).1 = true ∧
    (load_user_projects (save_user_projects demoState "Rolf" [demoProject]).2
        "Rolf").1 = [demoProject] := by
  have h := c7_round_trip demoState "Rolf" [demoProject] rfl rfl rfl rfl
  exact ⟨rfl, rfl, rfl, rfl, h.1, h.2⟩

/-- C8: over a reachable store, saving the empty sequence leaves the user's
table holding exactly the header row, and a subsequent load for that user
returns the empty sequence. -/
theorem c8_clear_then_load_empty (s : SheetsState) (u : String)
    (hgc : s.gcAvailable = true) (hdoc : s.docAvailable = true)
    (hwf : s.writeFails = false) :
    lookupTable (save_user_projects s u []).2.tables u = some [headerRow] ∧
    (load_user_projects (save_user_projects s u []).2 u).1 = [] := by
  obtain ⟨t2, hsave⟩ := save_reachable s u [] hgc hdoc hwf
  set s2 : SheetsState := { s with tables := setTable t2 u [headerRow] } with hs2
  have hl : lookupTable s2.tables u = some [headerRow] :=
    lookupTable_setTable_self t2 u [headerRow]
  have hgc2 : s2.gcAvailable = true := hgc
  have hdoc2 : s2.docAvailable = true := hdoc
  have hfound : get_worksheet s2 u = (some u, s2) :=
    get_worksheet_found s2 u [headerRow] hgc2 hdoc2 hl
  rw [hsave]
  refine ⟨hl, ?_⟩
  show (load_user_projects s2 u).1 = []
  unfold load_user_projects
  rw [hfound]
  show (if s2.readFails = true then (([] : List Project), s2)
      else (get_all_records ((lookupTable s2.tables u).getD []), s2)).1 = []
  by_cases hr : s2.readFails = true
  · rw [if_pos hr]
  · rw [if_neg hr]
    show get_all_records ((lookupTable s2.tables u).getD []) = []
    rw [hl]
    rfl

/-- Witness for C8 on the empty reachable store and the user Rolf. -/
theorem c8_clear_then_load_empty_witness :
    demoState.gcAvailable = true ∧ demoState.docAvailable = true ∧
    demoState.writeFails = false ∧
    lookupTable (save_user_projects demoState "Rolf" []).2.tables "Rolf"
      = some [headerRow] ∧
    (load_user_projects (save_user_projects demoState "Rolf" []).2 "Rolf").1 = [] := by
  have h := c8_clear_then_load_empty demoState "Rolf" rfl rfl rfl
  exact ⟨rfl, rfl, rfl, h.1, h.2⟩

/-- C9, counterexample: with the store unavailable, save of one record reports
success, yet the very next load in the same session returns the empty
sequence, not the record that was added in memory. -/
theorem c9_counterexample :
    (save_user_projects ⟨false, false, false, false, []⟩ "Rolf"
        [⟨"Dark Mode", 40, 1, 90, 1, 36⟩]).1 = true ∧
    (load_user_projects (save_user_projects ⟨false, false, false, false, []⟩ "Rolf"
        [⟨"Dark Mode", 40, 1, 90, 1, 36⟩]).2 "Rolf").1 = [] ∧
    ([] : List Project) ≠ [⟨"Dark Mode", 40, 1, 90, 1, 36⟩] := by
  decide

/-- C9 as amended: with the store unavailable, save reports success while
persisting nothing (the store state is unchanged), and every load — the one
right after the add in the same session as much as the one after a process
restart — returns the empty sequence; the added record survives only in the
UI session cache, which load never consults. -/
theorem c9_unavailable_save_load (s : SheetsState) (u : String) (ps : List Project)
    (h : s.gcAvailable = false) :
    save_user_projects s u ps = (true, s) ∧ (load_user_projects s u).1 = [] := by
  have hgw : get_worksheet s u = (none, s) := by
    unfold get_worksheet
    rw [if_pos h]
  constructor
  · unfold save_user_projects
    rw [hgw]
  · unfold load_user_projects
    rw [hgw]

/-- Witness for C9 on the unavailable store, the user Rolf and one record. -/
theorem c9_unavailable_save_load_witness :
    demoOffline.gcAvailable = false ∧
    save_user_projects demoOffline "Rolf" [demoProject] = (true, demoOffline) ∧
    (load_user_projects demoOffline "Rolf").1 = [] := by
  have h := c9_unavailable_save_load demoOffline "Rolf" [demoProject] rfl
  exact ⟨rfl, h.1, h.2⟩

/-- C10: with the store reachable and no table for the user yet, load creates
the user's worksheet in the store, initialized with the six-column header row,
as a side effect, and returns the empty sequence. -/
theorem c10_load_creates_worksheet (s : SheetsState) (u : String)
    (hgc : s.gcAvailable = true) (hdoc : s.docAvailable = true)
    (h : lookupTable s.tables u = none) :
    lookupTable (load_user_projects s u).2.tables u = some [headerRow] ∧
    (load_user_projects s u).1 = [] ∧
    headerRow.length = 6 := by
  have hgw := get_worksheet_new s u hgc hdoc h
  set s2 : SheetsState := { s with tables := s.tables ++ [(u, [headerRow])] } with hs2
  have hl : lookupTable s2.tables u = some [headerRow] :=
    lookupTable_append_of_none s.tables u [headerRow] h
  unfold load_user_projects
  rw [hgw]
  show lookupTable (if s2.readFails = true then (([] : List Project), s2)
      else (get_all_records ((lookupTable s2.tables u).getD []), s2)).2.tables u
      = some [headerRow] ∧
    (if s2.readFails = true then (([] : List Project), s2)
      else (get_all_records ((lookupTable s2.tables u).getD []), s2)).1 = [] ∧
    headerRow.length = 6
  by_cases hr : s2.readFails = true
  · rw [if_pos hr]
    exact ⟨hl, rfl, rfl⟩
  · rw [if_neg hr]
    refine ⟨hl, ?_, rfl⟩
    show get_all_records ((lookupTable s2.tables u).getD []) = []
    rw [hl]
    rfl

/-- Witness for C10 on the empty reachable store and the user Rolf. -/
theorem c10_load_creates_worksheet_witness :
    demoState.gcAvailable = true ∧ demoState.docAvailable = true ∧
    lookupTable demoState.tables "Rolf" = none ∧
    lookupTable (load_user_projects demoState "Rolf").2.tables "Rolf"
      = some [headerRow] ∧
    (load_user_projects demoState "Rolf").1 = [] := by
  have h := c10_load_creates_worksheet demoState "Rolf" rfl rfl rfl
  exact ⟨rfl, rfl, rfl, h.1, h.2.1⟩

end RiceCalc
